import Mathlib

set_option autoImplicit false

/-!
Verification of the customer-churn serving pipeline.

Embedded from the repository sources:
- src/api/customer_pipeline.py: the preprocessing building blocks
  (StandardScaler for numeric columns, OneHotEncoder with
  handle_unknown="ignore" for categorical columns, a ColumnTransformer that
  selects columns by name with remainder="drop"), and the estimator factory
  make_estimator_for_name.
- src/api/app.py: the health_check endpoint, which returns a constant body.
- src/test_inference.py: the sample record fed to model.predict.

The fitted transformers are embedded as data (stored means/scales, stored
category vocabularies) plus pure transform functions, matching the fitted
sklearn objects the source configures. Raw numeric values are embedded as
rationals. The loader and service state machine are not present under the
repository sources (only their caller and test are); where needed they are
modelled from the spec and marked as such in their doc comments.
-/

/-- A scalar field value of a customer record: a raw number (embedded as a
rational) or a category string, matching the mixed numeric/string columns of
the sample DataFrame in src/test_inference.py. -/
inductive Value where
  | num (x : ℚ)
  | str (s : String)
  deriving DecidableEq

/-- A raw input record: an ordered mapping from field name to scalar value,
the shape of one row sent to the service (a JSON object / DataFrame row). -/
abbrev CustomerRecord : Type := List (String × Value)

/-- Lookup of a field by NAME (first occurrence), the access discipline a
pandas DataFrame column selection uses: position in the record is irrelevant. -/
def lookupField (r : CustomerRecord) (name : String) : Option Value :=
  match r with
  | [] => none
  | (k, v) :: rest => if k = name then some v else lookupField rest name

/-- A fitted StandardScaler for one numeric column: the mean and scale
(standard deviation) learned at training time, stored in the artifact. -/
structure FittedScaler where
  mean : ℚ
  scale : ℚ
  deriving DecidableEq

/-- StandardScaler.transform on one value: uses only the stored training-time
parameters, never statistics of the incoming batch. -/
def FittedScaler.transform (s : FittedScaler) (x : ℚ) : ℚ :=
  (x - s.mean) / s.scale

/-- A fitted OneHotEncoder for one categorical column: the vocabulary of
category values learned at training time. -/
structure FittedOneHot where
  categories : List Value
  deriving DecidableEq

/-- OneHotEncoder.transform with handle_unknown="ignore" (the configuration in
cat_pipeline of src/api/customer_pipeline.py): one indicator per known
category; a value outside the vocabulary yields all zeros rather than an
error. -/
def FittedOneHot.transform (e : FittedOneHot) (v : Value) : List ℚ :=
  e.categories.map (fun c => if c = v then (1 : ℚ) else 0)

/-- Error taxonomy of the service (spec section 7): client validation errors,
artifact load failures, classifier failures. -/
inductive PipeError where
  | validation (msg : String)
  | artifactLoad (msg : String)
  | inference (msg : String)
  deriving DecidableEq

/-- Sequential fallible map: the first failing element fails the whole list,
no partial output. This is the row-wise semantics of applying a fitted
transformer to a DataFrame: the operation either yields a full matrix or
raises. -/
def exceptMapM {ε α β : Type} (f : α → Except ε β) : List α → Except ε (List β)
  | [] => .ok []
  | a :: as =>
    match f a with
    | .error e => .error e
    | .ok b =>
      match exceptMapM f as with
      | .error e => .error e
      | .ok bs => .ok (b :: bs)

/-- The numeric column names, exactly num_attribs in build_preprocessing of
src/api/customer_pipeline.py. -/
def num_attribs : List String :=
  ["creditScore", "age", "tenure", "balance", "numofProducts", "estimatedSalary"]

/-- The categorical column names, exactly car_attribs in build_preprocessing
of src/api/customer_pipeline.py (the name car_attribs is the one used by the
source). -/
def car_attribs : List String :=
  ["hasCrCard", "isActiveMember", "gender", "geography", "isZeroBalance"]

/-- A fitted ColumnTransformer as produced by fitting build_preprocessing:
one fitted scaler per numeric column and one fitted encoder per categorical
column, each addressed by column name; remainder="drop" means any other
column is ignored. -/
structure FittedPreprocessing where
  numScalers : List (String × FittedScaler)
  catEncoders : List (String × FittedOneHot)

/-- A fitted preprocessing that came from build_preprocessing: its column
names are exactly num_attribs and car_attribs, in the fixed order of the
source. -/
def FittedPreprocessing.wellFormed (p : FittedPreprocessing) : Prop :=
  p.numScalers.map Prod.fst = num_attribs ∧ p.catEncoders.map Prod.fst = car_attribs

/-- Extract and scale one numeric column of a record: the column is selected
by name; a missing column or a string where a number is required is a
validation failure (the batch DataFrame cannot be built / scaled). -/
def numFeatureColumn (r : CustomerRecord) (col : String × FittedScaler) : Except PipeError ℚ :=
  match lookupField r col.1 with
  | some (Value.num x) => .ok (col.2.transform x)
  | some (Value.str _) => .error (.validation ("non-numeric value for feature " ++ col.1))
  | none => .error (.validation ("missing required feature " ++ col.1))

/-- Extract and one-hot encode one categorical column of a record: the column
is selected by name; a missing column is a validation failure, but ANY present
value is accepted (unknown categories are handled by the encoder). -/
def catFeatureColumn (r : CustomerRecord) (col : String × FittedOneHot) :
    Except PipeError (List ℚ) :=
  match lookupField r col.1 with
  | some v => .ok (col.2.transform v)
  | none => .error (.validation ("missing required feature " ++ col.1))

/-- ColumnTransformer.transform on one record: the scaled numeric block in
num_attribs order followed by the concatenated one-hot blocks in car_attribs
order; columns are found by name, every other field of the record is dropped
(remainder="drop"). -/
def FittedPreprocessing.transformRecord (p : FittedPreprocessing) (r : CustomerRecord) :
    Except PipeError (List ℚ) :=
  match exceptMapM (numFeatureColumn r) p.numScalers with
  | .error e => .error e
  | .ok nums =>
    match exceptMapM (catFeatureColumn r) p.catEncoders with
    | .error e => .error e
    | .ok cats => .ok (nums ++ cats.flatten)

/-- The loaded model artifact: the fitted preprocessing plus the fitted
classifier, the latter embedded abstractly as the function
feature-vector to predicted class label that model.predict applies per row. -/
structure ModelArtifact where
  pre : FittedPreprocessing
  classifierPredict : List ℚ → ℤ

/-- Batch prediction, the model.predict call of src/test_inference.py: the
whole batch is transformed row by row (failing atomically on the first bad
record, with no partial output) and the classifier is applied to every
resulting row, preserving order. -/
def ModelArtifact.predict (a : ModelArtifact) (records : List CustomerRecord) :
    Except PipeError (List ℤ) :=
  match exceptMapM a.pre.transformRecord records with
  | .error e => .error e
  | .ok rows => .ok (rows.map a.classifierPredict)

/-- The estimators make_estimator_for_name can build, with the hyperparameter
values hard-coded in src/api/customer_pipeline.py. -/
inductive SklearnEstimator where
  | ridgeClassifier
  | histGradientBoostingClassifier (random_state : ℕ)
  | xgbClassifier (objective : String) (random_state n_estimators : ℕ)
      (learning_rate : ℚ) (max_depth : ℕ) (subsample colsample_bytree : ℚ)
      (tree_method : String) (n_jobs : ℤ)
  | lgbmClassifier (random_state n_estimators : ℕ) (learning_rate : ℚ)
      (num_leaves : ℕ) (subsample colsample_bytree : ℚ) (n_jobs : ℤ)
  deriving DecidableEq

/-- make_estimator_for_name of src/api/customer_pipeline.py: four known names
map to configured estimator instances; any other name raises ValueError with
the message given there (raising is embedded as Except.error). -/
def make_estimator_for_name (name : String) : Except String SklearnEstimator :=
  if name = "ridge" then
    .ok .ridgeClassifier
  else if name = "histgradientboosting" then
    .ok (.histGradientBoostingClassifier 42)
  else if name = "xgboost" then
    .ok (.xgbClassifier "reg:squarederror" 42 300 (1/10) 6 (8/10) (8/10) "hist" (-1))
  else if name = "lightgbm" then
    .ok (.lgbmClassifier 42 300 (5/100) 31 (8/10) (8/10) (-1))
  else
    .error ("Unknown model name: " ++ name)

/-- Modelled from the spec: the repository sources contain no artifact loader
(src/test_inference.py only calls joblib.load inside a test); spec section 4.2
describes the content of the file at the configured path as either readable
and compatible, or missing / corrupt / version-incompatible. -/
inductive ArtifactFile where
  | missing
  | corrupt
  | incompatible (detail : String)
  | valid (a : ModelArtifact)

/-- Modelled from the spec: the Model Artifact Loader of spec section 4.2.
A missing, corrupt or version-incompatible file fails with an
ArtifactLoadError; a valid file yields the artifact. -/
def loadArtifact : ArtifactFile → Except PipeError ModelArtifact
  | .missing => .error (.artifactLoad "artifact file missing")
  | .corrupt => .error (.artifactLoad "artifact file corrupt")
  | .incompatible d => .error (.artifactLoad ("incompatible artifact: " ++ d))
  | .valid a => .ok a

/-- Modelled from the spec: the service process states of spec section 4.3,
Unloaded, Loading, Ready (holding the immutable artifact) and Failed. -/
inductive ServiceState where
  | unloaded
  | loading (file : ArtifactFile)
  | ready (a : ModelArtifact)
  | failed (msg : String)

/-- Modelled from the spec: startup runs the loader once; success enters
Ready, failure enters Failed (the service refuses to start healthy). -/
def startup (file : ArtifactFile) : ServiceState :=
  match loadArtifact file with
  | .ok a => .ready a
  | .error (.artifactLoad m) => .failed m
  | .error _ => .failed "load failed"

/-- Modelled from the spec: the readiness surface reports ready exactly in
the Ready state. -/
def readiness : ServiceState → Bool
  | .ready _ => true
  | _ => false

/-- Modelled from the spec: handling one predict request. In the Ready state
the batch is validated, transformed and classified against the held artifact;
in every state the process state is returned unchanged (requests never mutate
the artifact or the service state). -/
def handleRequest (s : ServiceState) (batch : List CustomerRecord) :
    Except PipeError (List ℤ) × ServiceState :=
  match s with
  | .ready a => (a.predict batch, s)
  | _ => (.error (.artifactLoad "service not ready"), s)

/-- Modelled from the spec: the state of the service process after serving a
sequence of request batches. -/
def runRequests (s : ServiceState) : List (List CustomerRecord) → ServiceState
  | [] => s
  | b :: bs => runRequests (handleRequest s b).2 bs

/-- health_check of src/api/app.py: the endpoint returns the constant body
listed here. The source function reads no model, no load result and no
readiness flag; the process-state parameter records explicitly that the
response is the same in every state. -/
def health_check (_ : ServiceState) : List (String × String) :=
  [("status", "healthy")]

/-- The sample customer record of src/test_inference.py (first row of the
sample DataFrame; also the concrete scenario of the spec), with the geography
field left as a parameter. -/
def mkSample (geo : Value) : CustomerRecord :=
  [("creditScore", .num 740), ("age", .num 54), ("tenure", .num 1),
   ("balance", .num 126418), ("numofProducts", .num 1), ("hasCrCard", .num 1),
   ("isActiveMember", .num 0), ("estimatedSalary", .num 134420),
   ("isZeroBalance", .num 1), ("gender", .str "Male"), ("geography", geo)]

/-- The sample record exactly as in src/test_inference.py, geography
Germany. -/
def sampleRecord : CustomerRecord := mkSample (.str "Germany")

/-- A concrete fitted scaler used to instantiate theorems on explicit
inputs. -/
def testScaler : FittedScaler := ⟨0, 1⟩

/-- A concrete fitted geography encoder with the three geographies of the
training data. -/
def testEncoder : FittedOneHot := ⟨[.str "France", .str "Germany", .str "Spain"]⟩

/-- A concrete fitted preprocessing with the column layout of
build_preprocessing. -/
def testPre : FittedPreprocessing :=
  ⟨[("creditScore", testScaler), ("age", testScaler), ("tenure", testScaler),
    ("balance", testScaler), ("numofProducts", testScaler), ("estimatedSalary", testScaler)],
   [("hasCrCard", ⟨[.num 0, .num 1]⟩), ("isActiveMember", ⟨[.num 0, .num 1]⟩),
    ("gender", ⟨[.str "Female", .str "Male"]⟩), ("geography", testEncoder),
    ("isZeroBalance", ⟨[.num 0, .num 1]⟩)]⟩

/-- A concrete loaded artifact over testPre whose classifier always outputs
class 0. -/
def testArtifact : ModelArtifact := ⟨testPre, fun _ => 0⟩

theorem exceptMapM_ok_of_forall {ε α β : Type} (f : α → Except ε β) (l : List α)
    (h : ∀ a ∈ l, ∃ b, f a = .ok b) : ∃ bs, exceptMapM f l = .ok bs := by
  induction l with
  | nil => exact ⟨[], rfl⟩
  | cons a as ih =>
    obtain ⟨b, hb⟩ := h a (List.mem_cons_self a as)
    obtain ⟨bs, hbs⟩ := ih (fun x hx => h x (List.mem_cons_of_mem a hx))
    exact ⟨b :: bs, by simp [exceptMapM, hb, hbs]⟩

theorem exceptMapM_error_mem {ε α β : Type} (f : α → Except ε β) (l : List α) (e : ε)
    (h : exceptMapM f l = .error e) : ∃ a ∈ l, f a = .error e := by
  induction l with
  | nil => simp [exceptMapM] at h
  | cons a as ih =>
    cases hfa : f a with
    | error e2 =>
      simp [exceptMapM, hfa] at h
      exact ⟨a, List.mem_cons_self a as, by rw [hfa, h]⟩
    | ok b =>
      cases hrest : exceptMapM f as with
      | error e2 =>
        simp [exceptMapM, hfa, hrest] at h
        obtain ⟨x, hx, hfx⟩ := ih (by rw [hrest, h])
        exact ⟨x, List.mem_cons_of_mem a hx, hfx⟩
      | ok bs => simp [exceptMapM, hfa, hrest] at h

theorem exceptMapM_error_of_mem {ε α β : Type} (f : α → Except ε β) (l : List α) (a : α)
    (ha : a ∈ l) (e : ε) (hf : f a = .error e) : ∃ e2, exceptMapM f l = .error e2 := by
  induction l with
  | nil => cases ha
  | cons x xs ih =>
    cases hfx : f x with
    | error e2 => exact ⟨e2, by simp [exceptMapM, hfx]⟩
    | ok b =>
      rcases List.mem_cons.mp ha with rfl | ha2
      · rw [hf] at hfx; simp at hfx
      · obtain ⟨e2, he2⟩ := ih ha2
        exact ⟨e2, by simp [exceptMapM, hfx, he2]⟩

theorem exceptMapM_getElem {ε α β : Type} (f : α → Except ε β) (l : List α) (bs : List β)
    (h : exceptMapM f l = .ok bs) (i : ℕ) (a : α) (hi : l[i]? = some a) :
    ∃ b, f a = .ok b ∧ bs[i]? = some b := by
  induction l generalizing bs i with
  | nil => simp at hi
  | cons x xs ih =>
    cases hfx : f x with
    | error e => simp [exceptMapM, hfx] at h
    | ok b =>
      cases hrest : exceptMapM f xs with
      | error e => simp [exceptMapM, hfx, hrest] at h
      | ok bs2 =>
        simp [exceptMapM, hfx, hrest] at h
        subst h
        cases i with
        | zero =>
          simp at hi
          subst hi
          exact ⟨b, hfx, by simp⟩
        | succ n =>
          simp at hi
          obtain ⟨b2, hb2, hbs2⟩ := ih bs2 hrest n hi
          exact ⟨b2, hb2, by simpa using hbs2⟩

theorem exceptMapM_length {ε α β : Type} (f : α → Except ε β) (l : List α) (bs : List β)
    (h : exceptMapM f l = .ok bs) : bs.length = l.length := by
  induction l generalizing bs with
  | nil => simp [exceptMapM] at h; simp [h.symm]
  | cons x xs ih =>
    cases hfx : f x with
    | error e => simp [exceptMapM, hfx] at h
    | ok b =>
      cases hrest : exceptMapM f xs with
      | error e => simp [exceptMapM, hfx, hrest] at h
      | ok bs2 =>
        simp [exceptMapM, hfx, hrest] at h
        subst h
        simp [ih bs2 hrest]

theorem exceptMapM_congr {ε α β : Type} (f g : α → Except ε β) (l : List α)
    (h : ∀ a ∈ l, f a = g a) : exceptMapM f l = exceptMapM g l := by
  induction l with
  | nil => rfl
  | cons a as ih =>
    simp only [exceptMapM, h a (List.mem_cons_self a as),
      ih (fun x hx => h x (List.mem_cons_of_mem a hx))]

theorem lookupField_eq_none_iff (r : CustomerRecord) (name : String) :
    lookupField r name = none ↔ name ∉ r.map Prod.fst := by
  induction r with
  | nil => simp [lookupField]
  | cons kv rest ih =>
    obtain ⟨k, v⟩ := kv
    by_cases hk : k = name
    · subst hk
      simp [lookupField]
    · rw [lookupField]
      simp only [if_neg hk, ih, List.map_cons, List.mem_cons]
      constructor
      · intro h hc
        rcases hc with hc | hc
        · exact hk hc.symm
        · exact h hc
      · intro h hc
        exact h (Or.inr hc)

theorem lookupField_eq_some_mem (r : CustomerRecord) (name : String) (v : Value)
    (h : lookupField r name = some v) : (name, v) ∈ r := by
  induction r with
  | nil => simp [lookupField] at h
  | cons kv rest ih =>
    obtain ⟨k, w⟩ := kv
    rw [lookupField] at h
    by_cases hk : k = name
    · subst hk
      rw [if_pos rfl] at h
      injection h with h
      subst h
      exact List.mem_cons_self _ _
    · rw [if_neg hk] at h
      exact List.mem_cons_of_mem _ (ih h)

theorem lookupField_mem (r : CustomerRecord) (name : String) (v : Value)
    (hnd : (r.map Prod.fst).Nodup) (hmem : (name, v) ∈ r) :
    lookupField r name = some v := by
  induction r with
  | nil => cases hmem
  | cons kv rest ih =>
    obtain ⟨k, w⟩ := kv
    rw [List.map_cons, List.nodup_cons] at hnd
    rcases List.mem_cons.mp hmem with heq | hmem2
    · rw [Prod.mk.injEq] at heq
      obtain ⟨rfl, rfl⟩ := heq
      simp [lookupField]
    · by_cases hk : k = name
      · subst hk
        exact absurd (List.mem_map_of_mem Prod.fst hmem2) hnd.1
      · rw [lookupField, if_neg hk]
        exact ih hnd.2 hmem2

theorem lookupField_perm (r r2 : CustomerRecord) (hnd : (r.map Prod.fst).Nodup)
    (hp : List.Perm r r2) (name : String) :
    lookupField r name = lookupField r2 name := by
  have hnd2 : (r2.map Prod.fst).Nodup := ((hp.map Prod.fst).nodup_iff).mp hnd
  cases hv : lookupField r name with
  | some v =>
    exact (lookupField_mem r2 name v hnd2 (hp.subset (lookupField_eq_some_mem r name v hv))).symm
  | none =>
    symm
    rw [lookupField_eq_none_iff] at hv ⊢
    intro hc
    exact hv (((hp.map Prod.fst).mem_iff).mpr hc)

theorem numFeatureColumn_error (r : CustomerRecord) (col : String × FittedScaler)
    (e : PipeError) (h : numFeatureColumn r col = .error e) : ∃ msg, e = .validation msg := by
  unfold numFeatureColumn at h
  split at h
  · simp at h
  · injection h with h
    exact ⟨_, h.symm⟩
  · injection h with h
    exact ⟨_, h.symm⟩

theorem catFeatureColumn_error (r : CustomerRecord) (col : String × FittedOneHot)
    (e : PipeError) (h : catFeatureColumn r col = .error e) : ∃ msg, e = .validation msg := by
  unfold catFeatureColumn at h
  split at h
  · simp at h
  · injection h with h
    exact ⟨_, h.symm⟩

theorem transformRecord_error_validation (p : FittedPreprocessing) (r : CustomerRecord)
    (e : PipeError) (h : p.transformRecord r = .error e) : ∃ msg, e = .validation msg := by
  unfold FittedPreprocessing.transformRecord at h
  cases hn : exceptMapM (numFeatureColumn r) p.numScalers with
  | error e2 =>
    rw [hn] at h
    injection h with h
    subst h
    obtain ⟨col, _, hcol⟩ := exceptMapM_error_mem _ _ _ hn
    exact numFeatureColumn_error r col _ hcol
  | ok nums =>
    rw [hn] at h
    cases hc : exceptMapM (catFeatureColumn r) p.catEncoders with
    | error e2 =>
      rw [hc] at h
      injection h with h
      subst h
      obtain ⟨col, _, hcol⟩ := exceptMapM_error_mem _ _ _ hc
      exact catFeatureColumn_error r col _ hcol
    | ok cats =>
      rw [hc] at h
      simp at h

theorem transformRecord_ok (p : FittedPreprocessing) (r : CustomerRecord)
    (hnum : ∀ name ∈ p.numScalers.map Prod.fst, ∃ x, lookupField r name = some (.num x))
    (hcat : ∀ name ∈ p.catEncoders.map Prod.fst, ∃ v, lookupField r name = some v) :
    ∃ out, p.transformRecord r = .ok out := by
  have h1 : ∀ col ∈ p.numScalers, ∃ q, numFeatureColumn r col = .ok q := by
    intro col hcol
    obtain ⟨x, hx⟩ := hnum col.1 (List.mem_map_of_mem Prod.fst hcol)
    exact ⟨col.2.transform x, by unfold numFeatureColumn; rw [hx]⟩
  have h2 : ∀ col ∈ p.catEncoders, ∃ q, catFeatureColumn r col = .ok q := by
    intro col hcol
    obtain ⟨v, hv⟩ := hcat col.1 (List.mem_map_of_mem Prod.fst hcol)
    exact ⟨col.2.transform v, by unfold catFeatureColumn; rw [hv]⟩
  obtain ⟨nums, hn⟩ := exceptMapM_ok_of_forall _ _ h1
  obtain ⟨cats, hc⟩ := exceptMapM_ok_of_forall _ _ h2
  exact ⟨nums ++ cats.flatten, by unfold FittedPreprocessing.transformRecord; rw [hn, hc]⟩

theorem transformRecord_missing (p : FittedPreprocessing) (r : CustomerRecord) (name : String)
    (hname : name ∈ p.numScalers.map Prod.fst ∨ name ∈ p.catEncoders.map Prod.fst)
    (hmiss : lookupField r name = none) : ∃ e, p.transformRecord r = .error e := by
  rcases hname with hname | hname
  · obtain ⟨col, hcolmem, hcol1⟩ := List.mem_map.mp hname
    have hcolerr : numFeatureColumn r col =
        .error (.validation ("missing required feature " ++ name)) := by
      unfold numFeatureColumn
      rw [hcol1, hmiss]
    obtain ⟨e2, he2⟩ := exceptMapM_error_of_mem _ _ col hcolmem _ hcolerr
    exact ⟨e2, by unfold FittedPreprocessing.transformRecord; rw [he2]⟩
  · obtain ⟨col, hcolmem, hcol1⟩ := List.mem_map.mp hname
    have hcolerr : catFeatureColumn r col =
        .error (.validation ("missing required feature " ++ name)) := by
      unfold catFeatureColumn
      rw [hcol1, hmiss]
    obtain ⟨e2, he2⟩ := exceptMapM_error_of_mem _ _ col hcolmem _ hcolerr
    cases hn : exceptMapM (numFeatureColumn r) p.numScalers with
    | error e3 => exact ⟨e3, by unfold FittedPreprocessing.transformRecord; rw [hn]⟩
    | ok nums => exact ⟨e2, by unfold FittedPreprocessing.transformRecord; rw [hn, he2]⟩

theorem mkSample_num_fields (geo : Value) :
    ∀ name ∈ num_attribs, ∃ x, lookupField (mkSample geo) name = some (.num x) := by
  intro name hname
  rw [num_attribs] at hname
  simp only [List.mem_cons, List.not_mem_nil, or_false] at hname
  rcases hname with rfl | rfl | rfl | rfl | rfl | rfl
  · exact ⟨740, rfl⟩
  · exact ⟨54, rfl⟩
  · exact ⟨1, rfl⟩
  · exact ⟨126418, rfl⟩
  · exact ⟨1, rfl⟩
  · exact ⟨134420, rfl⟩

theorem mkSample_cat_fields (geo : Value) :
    ∀ name ∈ car_attribs, ∃ v, lookupField (mkSample geo) name = some v := by
  intro name hname
  rw [car_attribs] at hname
  simp only [List.mem_cons, List.not_mem_nil, or_false] at hname
  rcases hname with rfl | rfl | rfl | rfl | rfl
  · exact ⟨.num 1, rfl⟩
  · exact ⟨.num 0, rfl⟩
  · exact ⟨.str "Male", rfl⟩
  · exact ⟨geo, rfl⟩
  · exact ⟨.num 1, rfl⟩

theorem handleRequest_state (s : ServiceState) (b : List CustomerRecord) :
    (handleRequest s b).2 = s := by
  cases s <;> rfl

theorem runRequests_fixed (s : ServiceState) (bs : List (List CustomerRecord)) :
    runRequests s bs = s := by
  induction bs with
  | nil => rfl
  | cons b bs ih =>
    show runRequests (handleRequest s b).2 bs = s
    rw [handleRequest_state]
    exact ih

/-- A record missing most required features, used to instantiate the batch
validation theorem. -/
def badRecord : CustomerRecord := [("creditScore", .num 1)]

/-- The sample record with its first two fields swapped, a key-order
permutation of sampleRecord. -/
def swappedSample : CustomerRecord :=
  [("age", .num 54), ("creditScore", .num 740), ("tenure", .num 1),
   ("balance", .num 126418), ("numofProducts", .num 1), ("hasCrCard", .num 1),
   ("isActiveMember", .num 0), ("estimatedSalary", .num 134420),
   ("isZeroBalance", .num 1), ("gender", .str "Male"), ("geography", .str "Germany")]

/-- The transform of the one-record batch holding sampleRecord under
testPre. -/
def sampleMatrix : List (List ℚ) :=
  [[740, 54, 1, 126418, 1, 134420, 0, 1, 1, 0, 0, 1, 0, 1, 0, 0, 1]]

/-- C1: a categorical value absent from the training vocabulary is encoded by
the fitted one-hot encoder as the all-zero indicator vector rather than
failing, and predict on a record carrying an arbitrary (hence possibly
unseen) geography value succeeds with exactly one prediction. -/
theorem unknown_category_zero_and_predict_ok :
    (∀ (e : FittedOneHot) (v : Value), v ∉ e.categories →
      e.transform v = List.replicate e.categories.length 0) ∧
    (∀ a : ModelArtifact, a.pre.wellFormed →
      ∀ geo : Value, ∃ l, a.predict [mkSample geo] = .ok [l]) := by
  constructor
  · intro e v hv
    obtain ⟨cats⟩ := e
    show cats.map (fun c => if c = v then (1 : ℚ) else 0) = List.replicate cats.length 0
    induction cats with
    | nil => rfl
    | cons c cs ih =>
      rw [List.mem_cons, not_or] at hv
      rw [List.map_cons, List.length_cons, List.replicate_succ,
        if_neg (fun h => hv.1 h.symm), ih hv.2]
  · intro a hp geo
    obtain ⟨out, hout⟩ := transformRecord_ok a.pre (mkSample geo)
      (by rw [hp.1]; exact mkSample_num_fields geo)
      (by rw [hp.2]; exact mkSample_cat_fields geo)
    have hmap : exceptMapM a.pre.transformRecord [mkSample geo] = .ok [out] := by
      simp [exceptMapM, hout]
    exact ⟨a.classifierPredict out, by unfold ModelArtifact.predict; rw [hmap]; rfl⟩

/-- Witness for C1 at the geography value Narnia, absent from the test
vocabulary. -/
theorem unknown_category_zero_and_predict_ok_witness :
    Value.str "Narnia" ∉ testEncoder.categories ∧
    testEncoder.transform (.str "Narnia") =
      List.replicate testEncoder.categories.length 0 ∧
    ∃ l, testArtifact.predict [mkSample (.str "Narnia")] = .ok [l] :=
  ⟨by decide,
   unknown_category_zero_and_predict_ok.1 testEncoder (.str "Narnia") (by decide),
   unknown_category_zero_and_predict_ok.2 testArtifact ⟨rfl, rfl⟩ (.str "Narnia")⟩

/-- C2: for an artifact file that is missing, corrupt or version-incompatible,
the loader fails with an ArtifactLoadError, startup enters the Failed state
(reported not-ready), and no sequence of subsequent requests ever brings the
process to the Ready state. -/
theorem startup_failure_never_ready (f : ArtifactFile)
    (hf : ∀ a : ModelArtifact, f ≠ .valid a) :
    (∃ msg, loadArtifact f = .error (.artifactLoad msg)) ∧
    readiness (startup f) = false ∧
    ∀ batches : List (List CustomerRecord),
      readiness (runRequests (startup f) batches) = false := by
  have hload : ∃ msg, loadArtifact f = .error (.artifactLoad msg) := by
    cases f with
    | missing => exact ⟨_, rfl⟩
    | corrupt => exact ⟨_, rfl⟩
    | incompatible d => exact ⟨_, rfl⟩
    | valid a => exact absurd rfl (hf a)
  obtain ⟨msg, hmsg⟩ := hload
  have hstart : startup f = .failed msg := by
    unfold startup
    rw [hmsg]
  refine ⟨⟨msg, hmsg⟩, ?_, ?_⟩
  · rw [hstart]; rfl
  · intro batches
    rw [runRequests_fixed, hstart]
    rfl

/-- Witness for C2 at a missing artifact file and a concrete request
sequence. -/
theorem startup_failure_never_ready_witness :
    (∃ msg, loadArtifact .missing = .error (.artifactLoad msg)) ∧
    readiness (startup .missing) = false ∧
    readiness (runRequests (startup .missing) [[sampleRecord]]) = false :=
  have h := startup_failure_never_ready .missing (fun _ h => ArtifactFile.noConfusion h)
  ⟨h.1, h.2.1, h.2.2 [[sampleRecord]]⟩

/-- C3: if any record of a batch is missing a required numeric or categorical
feature, batch prediction fails with a ValidationError and yields no result
list at all: never a partial list. -/
theorem predict_missing_feature_validation (a : ModelArtifact)
    (rs : List CustomerRecord) (r : CustomerRecord) (name : String)
    (hp : a.pre.wellFormed) (hr : r ∈ rs)
    (hname : name ∈ num_attribs ∨ name ∈ car_attribs)
    (hmiss : lookupField r name = none) :
    (∃ msg, a.predict rs = .error (.validation msg)) ∧
    ∀ out : List ℤ, a.predict rs ≠ .ok out := by
  have hname2 : name ∈ a.pre.numScalers.map Prod.fst ∨
      name ∈ a.pre.catEncoders.map Prod.fst := by
    rw [hp.1, hp.2]
    exact hname
  obtain ⟨e, he⟩ := transformRecord_missing a.pre r name hname2 hmiss
  obtain ⟨e2, he2⟩ := exceptMapM_error_of_mem _ rs r hr e he
  obtain ⟨x, hxmem, hx⟩ := exceptMapM_error_mem _ rs e2 he2
  obtain ⟨msg, rfl⟩ := transformRecord_error_validation a.pre x e2 hx
  have hpred : a.predict rs = .error (.validation msg) := by
    unfold ModelArtifact.predict
    rw [he2]
  exact ⟨⟨msg, hpred⟩, fun out hout => by rw [hpred] at hout; exact Except.noConfusion hout⟩

/-- Witness for C3: a two-record batch whose second record is missing the age
feature fails as a whole with a validation error. -/
theorem predict_missing_feature_validation_witness :
    (∃ msg, testArtifact.predict [sampleRecord, badRecord] = .error (.validation msg)) ∧
    testArtifact.predict [sampleRecord, badRecord] ≠ .ok [0, 0] :=
  have h := predict_missing_feature_validation testArtifact [sampleRecord, badRecord]
    badRecord "age" ⟨rfl, rfl⟩ (by simp) (Or.inl (by decide)) rfl
  ⟨h.1, h.2 [0, 0]⟩

/-- C4: for a loaded artifact fitted over the binary churn labels, predicting
on the concrete sample record of the spec yields exactly one prediction whose
label is 0 or 1. -/
theorem predict_sample_binary_label (a : ModelArtifact) (hp : a.pre.wellFormed)
    (hc : ∀ x : List ℚ, a.classifierPredict x = 0 ∨ a.classifierPredict x = 1) :
    ∃ l, a.predict [sampleRecord] = .ok [l] ∧ (l = 0 ∨ l = 1) := by
  obtain ⟨out, hout⟩ := transformRecord_ok a.pre sampleRecord
    (by rw [hp.1]; exact mkSample_num_fields (.str "Germany"))
    (by rw [hp.2]; exact mkSample_cat_fields (.str "Germany"))
  have hmap : exceptMapM a.pre.transformRecord [sampleRecord] = .ok [out] := by
    simp [exceptMapM, hout]
  exact ⟨a.classifierPredict out, by unfold ModelArtifact.predict; rw [hmap]; rfl, hc out⟩

/-- Witness for C4 at the concrete test artifact. -/
theorem predict_sample_binary_label_witness :
    ∃ l, testArtifact.predict [sampleRecord] = .ok [l] ∧ (l = 0 ∨ l = 1) :=
  predict_sample_binary_label testArtifact ⟨rfl, rfl⟩ (fun _ => Or.inl rfl)

/-- C5: batch prediction preserves length and order: one output label per
input record, and a three-record batch yields exactly the three single-record
predictions in input order. -/
theorem predict_batch_order (a : ModelArtifact) :
    (∀ (rs : List CustomerRecord) (out : List ℤ),
      a.predict rs = .ok out → out.length = rs.length) ∧
    (∀ (r1 r2 r3 : CustomerRecord) (p1 p2 p3 : ℤ),
      a.predict [r1] = .ok [p1] → a.predict [r2] = .ok [p2] →
      a.predict [r3] = .ok [p3] →
      a.predict [r1, r2, r3] = .ok [p1, p2, p3]) := by
  have inv : ∀ (r : CustomerRecord) (p : ℤ), a.predict [r] = .ok [p] →
      ∃ v, a.pre.transformRecord r = .ok v ∧ a.classifierPredict v = p := by
    intro r p h
    cases hfr : a.pre.transformRecord r with
    | error e =>
      have hbad : a.predict [r] = .error e := by
        unfold ModelArtifact.predict
        simp [exceptMapM, hfr]
      rw [hbad] at h
      exact Except.noConfusion h
    | ok v =>
      have hm : exceptMapM a.pre.transformRecord [r] = .ok [v] := by
        simp [exceptMapM, hfr]
      unfold ModelArtifact.predict at h
      rw [hm] at h
      injection h with h
      simp at h
      exact ⟨v, rfl, h⟩
  constructor
  · intro rs out hout
    unfold ModelArtifact.predict at hout
    cases hm : exceptMapM a.pre.transformRecord rs with
    | error e =>
      rw [hm] at hout
      exact Except.noConfusion hout
    | ok rows =>
      rw [hm] at hout
      injection hout with hout
      rw [← hout, List.length_map]
      exact exceptMapM_length _ _ _ hm
  · intro r1 r2 r3 p1 p2 p3 h1 h2 h3
    obtain ⟨v1, hv1, hp1⟩ := inv r1 p1 h1
    obtain ⟨v2, hv2, hp2⟩ := inv r2 p2 h2
    obtain ⟨v3, hv3, hp3⟩ := inv r3 p3 h3
    have hm : exceptMapM a.pre.transformRecord [r1, r2, r3] = .ok [v1, v2, v3] := by
      simp [exceptMapM, hv1, hv2, hv3]
    unfold ModelArtifact.predict
    rw [hm]
    simp [hp1, hp2, hp3]

/-- Witness for C5: a concrete three-record batch equals the concatenation of
its single-record predictions. -/
theorem predict_batch_order_witness :
    testArtifact.predict [sampleRecord] = .ok [0] ∧
    testArtifact.predict [sampleRecord, sampleRecord, sampleRecord] = .ok [0, 0, 0] :=
  ⟨rfl, (predict_batch_order testArtifact).2 sampleRecord sampleRecord sampleRecord
    0 0 0 rfl rfl rfl⟩

/-- C6: the transform selects columns by feature name, never by position: a
field whose name is not a required column is dropped without error (the
output is unchanged), and permuting the field order of a duplicate-free
record leaves the transform result unchanged. -/
theorem transform_selects_by_name (p : FittedPreprocessing) :
    (∀ (r : CustomerRecord) (k : String) (v : Value),
      k ∉ p.numScalers.map Prod.fst → k ∉ p.catEncoders.map Prod.fst →
      p.transformRecord ((k, v) :: r) = p.transformRecord r) ∧
    (∀ r r2 : CustomerRecord, (r.map Prod.fst).Nodup → List.Perm r r2 →
      p.transformRecord r = p.transformRecord r2) := by
  have key : ∀ (r r2 : CustomerRecord),
      (∀ name, name ∈ p.numScalers.map Prod.fst ∨ name ∈ p.catEncoders.map Prod.fst →
        lookupField r name = lookupField r2 name) →
      p.transformRecord r = p.transformRecord r2 := by
    intro r r2 hlk
    unfold FittedPreprocessing.transformRecord
    rw [exceptMapM_congr (numFeatureColumn r) (numFeatureColumn r2) p.numScalers
        (fun col hcol => by
          unfold numFeatureColumn
          rw [hlk col.1 (Or.inl (List.mem_map_of_mem Prod.fst hcol))]),
      exceptMapM_congr (catFeatureColumn r) (catFeatureColumn r2) p.catEncoders
        (fun col hcol => by
          unfold catFeatureColumn
          rw [hlk col.1 (Or.inr (List.mem_map_of_mem Prod.fst hcol))])]
  constructor
  · intro r k v hk1 hk2
    apply key
    intro name hname
    have hne : k ≠ name := by
      rintro rfl
      rcases hname with h | h
      · exact hk1 h
      · exact hk2 h
    simp [lookupField, hne]
  · intro r r2 hnd hperm
    apply key
    intro name _
    exact lookupField_perm r r2 hnd hperm name

/-- Witness for C6: an extra customerId field is dropped and a key swap does
not change the transform, on concrete inputs over testPre. -/
theorem transform_selects_by_name_witness :
    testPre.transformRecord (("customerId", .num 7) :: sampleRecord) =
      testPre.transformRecord sampleRecord ∧
    testPre.transformRecord sampleRecord = testPre.transformRecord swappedSample :=
  ⟨(transform_selects_by_name testPre).1 sampleRecord "customerId" (.num 7)
      (by decide) (by decide),
   (transform_selects_by_name testPre).2 sampleRecord swappedSample (by decide)
      (List.Perm.swap _ _ _)⟩

/-- C7: numeric standardization applies the stored training-time mean and
scale, and each row of a batch transform depends only on its own record: the
value at batch position i is exactly the single-record transform of the
record at position i, whatever the rest of the batch holds. -/
theorem scaler_trained_params_batch_independent (p : FittedPreprocessing) :
    (∀ (s : FittedScaler) (x : ℚ), s.transform x = (x - s.mean) / s.scale) ∧
    (∀ (rs : List CustomerRecord) (m : List (List ℚ)),
      exceptMapM p.transformRecord rs = .ok m →
      ∀ (i : ℕ) (r : CustomerRecord), rs[i]? = some r →
        ∃ row, p.transformRecord r = .ok row ∧ m[i]? = some row) :=
  ⟨fun _ _ => rfl, fun rs m hm i r hi => exceptMapM_getElem _ rs m hm i r hi⟩

/-- Witness for C7 at a concrete one-record batch over testPre. -/
theorem scaler_trained_params_batch_independent_witness :
    testScaler.transform 740 = (740 - testScaler.mean) / testScaler.scale ∧
    ∃ row, testPre.transformRecord sampleRecord = .ok row ∧ sampleMatrix[0]? = some row :=
  ⟨(scaler_trained_params_batch_independent testPre).1 testScaler 740,
   (scaler_trained_params_batch_independent testPre).2 [sampleRecord] sampleMatrix
     (by simp +decide [exceptMapM, FittedPreprocessing.transformRecord, numFeatureColumn,
       catFeatureColumn, lookupField, testPre, testScaler, testEncoder,
       FittedScaler.transform, FittedOneHot.transform, sampleRecord, mkSample, sampleMatrix])
     0 sampleRecord rfl⟩

/-- C8: serving a request is deterministic and side-effect free: the process
state (the loaded artifact included) is returned unchanged, and a second run
of the identical request on the state left by the first yields the identical
output. -/
theorem inference_deterministic_pure (s : ServiceState) (batch : List CustomerRecord) :
    (handleRequest s batch).2 = s ∧
    (handleRequest (handleRequest s batch).2 batch).1 = (handleRequest s batch).1 := by
  refine ⟨handleRequest_state s batch, ?_⟩
  rw [handleRequest_state]

/-- C9: make_estimator_for_name yields an estimator instance for exactly the
four known names and fails with ValueError carrying the message Unknown model
name followed by the name for every other string; it is a total pure
function. -/
theorem make_estimator_for_name_spec (name : String) :
    (name = "ridge" ∨ name = "histgradientboosting" ∨ name = "xgboost" ∨
        name = "lightgbm" →
      ∃ e, make_estimator_for_name name = .ok e) ∧
    (name ≠ "ridge" → name ≠ "histgradientboosting" → name ≠ "xgboost" →
      name ≠ "lightgbm" →
      make_estimator_for_name name = .error ("Unknown model name: " ++ name)) := by
  constructor
  · rintro (rfl | rfl | rfl | rfl)
    · exact ⟨_, rfl⟩
    · exact ⟨_, rfl⟩
    · exact ⟨_, rfl⟩
    · exact ⟨_, rfl⟩
  · intro h1 h2 h3 h4
    unfold make_estimator_for_name
    rw [if_neg h1, if_neg h2, if_neg h3, if_neg h4]

/-- Witness for C9 at the known name ridge and the unknown name mlp. -/
theorem make_estimator_for_name_spec_witness :
    (∃ e, make_estimator_for_name "ridge" = .ok e) ∧
    make_estimator_for_name "mlp" = .error ("Unknown model name: " ++ "mlp") :=
  ⟨(make_estimator_for_name_spec "ridge").1 (Or.inl rfl),
   (make_estimator_for_name_spec "mlp").2 (by decide) (by decide) (by decide) (by decide)⟩

/-- C10: the health endpoint of src/api/app.py returns the constant healthy
body in every process state: it reads no artifact, load result or readiness
flag. -/
theorem health_check_always_healthy :
    ∀ s : ServiceState, health_check s = [("status", "healthy")] :=
  fun _ => rfl
